import Mathlib

/-!
# Verification of the mortgage-tracker offline-first synchronization core

Shallow embedding of the offline storage layer, derived-view calculator,
mutation (sync) queue, drain pass, retry-attempt estimation and the remote
(backend) payment/house operations, together with theorems settling the
specification claims.

Numeric fields that the source stores as IEEE doubles (Motoko Float / JS
number) are modelled as exact rationals; timestamps as integers; indices as
naturals.  Fallible operations (backend traps) return Option.
-/

namespace MortgageTracker

/-- A dependent record (backend type Payment, frontend SerializablePayment).
Fields as in src/src/backend/main.mo and src/src/frontend/src/lib/bigIntUtils.ts. -/
structure Payment where
  amount : ℚ
  date : ℤ
  note : String
  houseId : String
  paymentMethod : String
deriving DecidableEq, Repr

/-- An entity (backend type House / frontend SerializableHouse). -/
structure House where
  id : String
  name : String
  totalCost : ℚ
  interestRate : ℚ
  loanTermYears : ℕ
  downPayment : ℚ
  createdAt : ℤ
deriving DecidableEq, Repr

/-- Per-identity profile record. -/
structure UserProfile where
  name : String
deriving DecidableEq, Repr

/-- Descending-by-date sort used for a house's payment list:
js sort with comparator (a, b) => b.date - a.date (stable), and the backend
Payment.compare = Int.compare(b.date, a.date). -/
def sortPaymentsDesc (l : List Payment) : List Payment :=
  l.insertionSort (fun a b => b.date ≤ a.date)

/-- offlineStorage.getPaymentsByHouse: filter the global payment list by
houseId, then sort descending by date.  The same filter-then-sort expression
is inlined in useEditPayment and useDeletePayment (useQueries.ts). -/
def getPaymentsByHouse (payments : List Payment) (houseId : String) : List Payment :=
  sortPaymentsDesc (payments.filter (fun p => decide (p.houseId = houseId)))

/-- payments.reduce((sum, p) => sum + p.amount, 0). -/
def sumAmounts (l : List Payment) : ℚ :=
  l.foldl (fun s p => s + p.amount) 0

/-- Result record of the per-house progress calculation (backend type
HouseProgress; the frontend calculateHouseProgress returns the same shape). -/
structure HouseProgress where
  totalPaid : ℚ
  remainingBalance : ℚ
  progressPercentage : ℚ
  interestAmount : ℚ
  downPayment : ℚ
  loanTermYears : ℕ
  totalLoanAmount : ℚ
deriving DecidableEq, Repr

/-- offlineStorage.calculateHouseProgress (bigIntUtils.ts lines 531-553):
find the house by id (null when absent), sum the house's payments, and apply
the loan arithmetic with the divide-by-zero guard on the progress
percentage. -/
def calculateHouseProgress (houses : List House) (payments : List Payment)
    (houseId : String) : Option HouseProgress :=
  match houses.find? (fun h => decide (h.id = houseId)) with
  | none => none
  | some house =>
    let housePayments := getPaymentsByHouse payments houseId
    let totalPaid := sumAmounts housePayments
    let loanAmount := house.totalCost - house.downPayment
    let interestAmount := loanAmount * (house.interestRate / 100)
    let totalLoanAmount := loanAmount + interestAmount
    let remainingBalance := totalLoanAmount - totalPaid
    let progressPercentage :=
      if totalLoanAmount = 0 then 0 else totalPaid / totalLoanAmount * 100
    some { totalPaid, remainingBalance, progressPercentage, interestAmount,
           downPayment := house.downPayment,
           loanTermYears := house.loanTermYears, totalLoanAmount }

/-- A backend account (main.mo type Account).  The Map of houses is modelled
as a list with unique ids; the payments List keeps insertion order. -/
structure Account where
  userProfile : UserProfile
  houses : List House
  payments : List Payment
deriving DecidableEq, Repr

/-- Backend deleteHouse (main.mo lines 172-201): trap (none) when the house
id is absent, otherwise remove it from the house map and filter out every
payment referencing it. -/
def backendDeleteHouse (acc : Account) (houseId : String) : Option Account :=
  if acc.houses.any (fun h => decide (h.id = houseId)) then
    some { acc with
           houses := acc.houses.filter (fun h => decide (h.id ≠ houseId)),
           payments := acc.payments.filter (fun p => decide (p.houseId ≠ houseId)) }
  else none

/-- Backend deletePayment (main.mo lines 308-352): the index is resolved
against the account's FULL payment list in insertion order; traps (none) when
out of range or when the payment's house is absent; otherwise the element at
that index is removed (the Array.tabulate over size-1 shifting past the
index). -/
def backendDeletePayment (acc : Account) (paymentIndex : ℕ) : Option Account :=
  if h : paymentIndex < acc.payments.length then
    let paymentToDelete := acc.payments.get ⟨paymentIndex, h⟩
    if acc.houses.any (fun hs => decide (hs.id = paymentToDelete.houseId)) then
      some { acc with payments := acc.payments.eraseIdx paymentIndex }
    else none
  else none

/-- Backend editPayment (main.mo lines 258-305): house-existence check, then
index check against the FULL payment list in insertion order, then the
element at that index is replaced by the new payment (Array.tabulate). -/
def backendEditPayment (acc : Account) (paymentIndex : ℕ) (amount : ℚ)
    (note : String) (houseId : String) (paymentMethod : String) (date : ℤ) :
    Option Account :=
  if acc.houses.any (fun hs => decide (hs.id = houseId)) then
    if paymentIndex < acc.payments.length then
      let newPayment : Payment := { amount, date, note, houseId, paymentMethod }
      some { acc with payments := acc.payments.set paymentIndex newPayment }
    else none
  else none

/-- Backend getHouseProgress (main.mo lines 355-398): foldLeft over the full
payment list adding the amounts whose houseId matches, then the same loan
arithmetic with the divide-by-zero guard. -/
def backendGetHouseProgress (acc : Account) (houseId : String) :
    Option HouseProgress :=
  match acc.houses.find? (fun h => decide (h.id = houseId)) with
  | none => none
  | some house =>
    let totalPaid := acc.payments.foldl
      (fun a p => if p.houseId = houseId then a + p.amount else a) 0
    let loanAmount := house.totalCost - house.downPayment
    let interestAmount := loanAmount * (house.interestRate / 100)
    let totalCostWithInterest := loanAmount + interestAmount
    let remainingBalance := totalCostWithInterest - totalPaid
    let progressPercentage :=
      if totalCostWithInterest = 0 then 0
      else totalPaid / totalCostWithInterest * 100
    some { totalPaid, remainingBalance, progressPercentage, interestAmount,
           downPayment := house.downPayment,
           loanTermYears := house.loanTermYears,
           totalLoanAmount := totalCostWithInterest }

/-- The first-match predicate used by useEditPayment / useDeletePayment to
locate the targeted house payment inside the global payment list:
p.houseId === t.houseId && p.date === t.date && p.amount === t.amount. -/
def paymentKeyMatch (p t : Payment) : Bool :=
  decide (p.houseId = t.houseId ∧ p.date = t.date ∧ p.amount = t.amount)

/-- Local-store effect of useDeletePayment (useQueries.ts lines 596-648):
sort the house's payments descending by date, take the one at paymentIndex
(no change when out of range), find its first match in the global list and
splice it out (no change when findIndex misses). -/
def deletePaymentLocal (payments : List Payment) (houseId : String)
    (paymentIndex : ℕ) : List Payment :=
  let housePayments := getPaymentsByHouse payments houseId
  if h : paymentIndex < housePayments.length then
    let paymentToDelete := housePayments.get ⟨paymentIndex, h⟩
    match payments.findIdx? (fun p => paymentKeyMatch p paymentToDelete) with
    | some globalIndex => payments.eraseIdx globalIndex
    | none => payments
  else payments

/-- Local-store effect of useEditPayment (useQueries.ts lines 509-563):
locate the payment exactly as deletePaymentLocal does, then overwrite the
matched global slot with the new field values. -/
def editPaymentLocal (payments : List Payment) (houseId : String)
    (paymentIndex : ℕ) (amount : ℚ) (note : String) (paymentMethod : String)
    (date : ℤ) : List Payment :=
  let housePayments := getPaymentsByHouse payments houseId
  if h : paymentIndex < housePayments.length then
    let paymentToUpdate := housePayments.get ⟨paymentIndex, h⟩
    match payments.findIdx? (fun p => paymentKeyMatch p paymentToUpdate) with
    | some globalIndex =>
        payments.set globalIndex { amount, note, houseId, paymentMethod, date }
    | none => payments
  else payments

/-- offlineStorage.deleteHouse (bigIntUtils.ts lines 363-377): filter the
house out of the house list and filter out every payment referencing it. -/
def deleteHouseLocal (houses : List House) (payments : List Payment)
    (houseId : String) : List House × List Payment :=
  (houses.filter (fun h => decide (h.id ≠ houseId)),
   payments.filter (fun p => decide (p.houseId ≠ houseId)))

/-- The no-orphans invariant of the spec: every payment references a live
house. -/
def noOrphans (houses : List House) (payments : List Payment) : Prop :=
  ∀ p ∈ payments, ∃ h ∈ houses, h.id = p.houseId

/-- The operation-type enum of SyncQueueItem (offlineStorage section of
bigIntUtils.ts). -/
inductive SyncOpType where
  | add_house
  | update_house
  | delete_house
  | add_payment
  | edit_payment
  | delete_payment
  | update_profile
deriving DecidableEq, Repr

/-- Operation-specific payloads carried by a queue item (the data field). -/
inductive SyncPayload where
  | housePayload (h : House)
  | houseIdPayload (houseId : String)
  | addPaymentPayload (amount : ℚ) (note : String) (houseId : String)
      (paymentMethod : String) (date : ℤ)
  | editPaymentPayload (paymentIndex : ℕ) (amount : ℚ) (note : String)
      (houseId : String) (paymentMethod : String) (date : ℤ)
  | deletePaymentPayload (paymentIndex : ℕ) (houseId : String)
  | profilePayload (p : UserProfile)
deriving DecidableEq, Repr

/-- SyncQueueItem (bigIntUtils.ts lines 311-317). -/
structure SyncQueueItem where
  id : String
  type : SyncOpType
  data : SyncPayload
  timestamp : ℤ
  retryCount : ℕ
deriving DecidableEq, Repr

/-- offlineStorage.addToSyncQueue (bigIntUtils.ts lines 441-451): build the
item from the caller's type and data plus an environment-supplied fresh id
(Date.now + random suffix) and timestamp (Date.now), retryCount 0, and push
it at the end of the queue. -/
def addToSyncQueue (queue : List SyncQueueItem) (ty : SyncOpType)
    (d : SyncPayload) (freshId : String) (now : ℤ) : List SyncQueueItem :=
  queue ++ [{ id := freshId, type := ty, data := d, timestamp := now,
              retryCount := 0 }]

/-- offlineStorage.removeFromSyncQueue (bigIntUtils.ts lines 453-457):
keep the items whose id differs. -/
def removeFromSyncQueue (queue : List SyncQueueItem) (itemId : String) :
    List SyncQueueItem :=
  queue.filter (fun it => decide (it.id ≠ itemId))

/-- offlineStorage.incrementRetryCount (bigIntUtils.ts lines 463-469):
map over the queue bumping retryCount on the id match. -/
def incrementRetryCount (queue : List SyncQueueItem) (itemId : String) :
    List SyncQueueItem :=
  queue.map (fun it =>
    if it.id = itemId then { it with retryCount := it.retryCount + 1 } else it)

/-- offlineStorage.clearSyncQueue: saveSyncQueue([]). -/
def clearSyncQueue (_queue : List SyncQueueItem) : List SyncQueueItem := []

/-- The per-item body of the processSyncQueue drain loop (useBackgroundSync):
on success remove the item; on failure increment the stored retryCount, then
drop the item when the SNAPSHOT value item.retryCount (read before the
increment) is at least 3. -/
def drainProcessItem (stored : List SyncQueueItem) (item : SyncQueueItem)
    (callSucceeds : Bool) : List SyncQueueItem :=
  if callSucceeds then removeFromSyncQueue stored item.id
  else
    let afterIncrement := incrementRetryCount stored item.id
    if 3 ≤ item.retryCount then removeFromSyncQueue afterIncrement item.id
    else afterIncrement

/-- One drain pass of processSyncQueue: iterate over the snapshot of the
queue read at the start of the pass, threading the stored queue through the
per-item step; callSucceeds tells whether the remote call for the item
returns or throws. -/
def processSyncQueuePass (stored : List SyncQueueItem)
    (callSucceeds : SyncQueueItem → Bool) : List SyncQueueItem :=
  stored.foldl (fun st item => drainProcessItem st item (callSucceeds item))
    stored

/-- The browser key/value store backing offlineStorage: localStorage.getItem
returns the stored string or null. -/
def LocalStore : Type := String → Option String

/-- offlineStorage.getHouses (bigIntUtils.ts lines 353-361): read the key,
parse; a missing key or a parse during which JSON.parse throws (parse
returning none) yields the empty default inside the catch. -/
def lsGetHouses (store : LocalStore) (key : String)
    (parseHouses : String → Option (List House)) : List House :=
  match store key with
  | none => []
  | some s => (parseHouses s).getD []

/-- offlineStorage.getPayments (bigIntUtils.ts lines 388-396): same shape as
getHouses with the payments key. -/
def lsGetPayments (store : LocalStore) (key : String)
    (parsePayments : String → Option (List Payment)) : List Payment :=
  match store key with
  | none => []
  | some s => (parsePayments s).getD []

/-- offlineStorage.getProfile (bigIntUtils.ts lines 412-420): missing key or
parse failure yields null. -/
def lsGetProfile (store : LocalStore) (key : String)
    (parseProfile : String → Option UserProfile) : Option UserProfile :=
  match store key with
  | none => none
  | some s => parseProfile s

/-- offlineStorage.getSyncQueue (bigIntUtils.ts lines 423-431): missing key
or parse failure yields the empty queue. -/
def lsGetSyncQueue (store : LocalStore) (key : String)
    (parseQueue : String → Option (List SyncQueueItem)) :
    List SyncQueueItem :=
  match store key with
  | none => []
  | some s => (parseQueue s).getD []

/-- The common body of saveHouses / savePayments / saveProfile /
saveSyncQueue (bigIntUtils.ts): localStorage.setItem wrapped in try/catch;
when setItem throws (writeSucceeds = false) the error is only logged and the
store is left unchanged — the save returns normally either way, which the
totality of this function models. -/
def lsSave (store : LocalStore) (key value : String) (writeSucceeds : Bool) :
    LocalStore :=
  if writeSucceeds then fun k => if k = key then some value else store k
  else store

/-- MAX_RETRY_ATTEMPTS in useActorWithRetry.ts. -/
def MAX_RETRY_ATTEMPTS : ℕ := 5

/-- The estimated attempt number computed in useActorWithRetry while the
actor is being fetched (Connecting): a chain of reassignments keyed on the
elapsed milliseconds since acquisition started. -/
def estimatedAttempt (elapsed : ℤ) : ℕ :=
  let a0 : ℕ := 0
  let a1 := if 1000 ≤ elapsed then 1 else a0
  let a2 := if 3000 ≤ elapsed then 2 else a1
  let a3 := if 7000 ≤ elapsed then 3 else a2
  let a4 := if 11000 ≤ elapsed then 4 else a3
  let a5 := if 15000 ≤ elapsed then 5 else a4
  a5

/-- setRetryAttempt(Math.min(estimatedAttempt, MAX_RETRY_ATTEMPTS)). -/
def reportedRetryAttempt (elapsed : ℤ) : ℕ :=
  min (estimatedAttempt elapsed) MAX_RETRY_ATTEMPTS

/-- The retry/backoff step function as the spec words it: attempt boundaries
at elapsed of at least 1s, 3s, 7s, 11s, 15s mapped to attempt counters
1..5, and 0 before the first boundary. -/
def attemptStepSpec (elapsed : ℤ) : ℕ :=
  if 15000 ≤ elapsed then 5
  else if 11000 ≤ elapsed then 4
  else if 7000 ≤ elapsed then 3
  else if 3000 ≤ elapsed then 2
  else if 1000 ≤ elapsed then 1
  else 0

/-! ## Theorems -/

/-- C9: While the session is Connecting, the reported attemptNumber is the
step function of elapsed time with boundaries at 1s, 3s, 7s, 11s, 15s mapped
to attempt counters 1..5 (0 before 1s), and it never exceeds the maximum
attempt count 5. -/
theorem c9_attempt_step_function :
    ∀ elapsed : ℤ,
      reportedRetryAttempt elapsed = attemptStepSpec elapsed ∧
      reportedRetryAttempt elapsed ≤ 5 := by
  intro e
  simp only [reportedRetryAttempt, estimatedAttempt, attemptStepSpec,
    MAX_RETRY_ATTEMPTS]
  constructor
  · split_ifs <;> omega
  · split_ifs <;> omega

/-- Concrete queue item for C2: delete_house operation whose retryCount has
reached 2 before the drain pass. -/
def c2ItemRetry2 : SyncQueueItem :=
  { id := "q1", type := .delete_house, data := .houseIdPayload "h1",
    timestamp := 0, retryCount := 2 }

/-- The same item after one more failed attempt (retryCount 3). -/
def c2ItemRetry3 : SyncQueueItem := { c2ItemRetry2 with retryCount := 3 }

/-- C2 (code bug, off-by-one drop threshold): a queued item whose remote call
fails with snapshot retryCount 2 has its stored retryCount incremented to 3 —
the claim and the spec say it is dropped exactly now — yet the drain loop
keeps it queued, because the drop test compares the stale pre-increment
snapshot (item.retryCount at least 3); the item is dropped only on the next
failure, when retryCount reaches 4.  The success path of the same item,
failing twice and succeeding on the third attempt, does remove it. -/
theorem c2_retry_drop_off_by_one :
    drainProcessItem [c2ItemRetry2] c2ItemRetry2 false = [c2ItemRetry3] ∧
    drainProcessItem [c2ItemRetry3] c2ItemRetry3 false = [] ∧
    drainProcessItem [c2ItemRetry2] c2ItemRetry2 true = [] := by
  decide

/-- Concrete payments for C1/C10: both belong to house h1; the one with the
later date was appended second, so insertion order and descending-date order
disagree. -/
def cPayEarly : Payment :=
  { amount := 10, date := 100, note := "", houseId := "h1",
    paymentMethod := "" }

def cPayLate : Payment :=
  { amount := 20, date := 200, note := "", houseId := "h1",
    paymentMethod := "" }

def cHouse1 : House :=
  { id := "h1", name := "", totalCost := 300000, interestRate := 4,
    loanTermYears := 30, downPayment := 60000, createdAt := 0 }

/-- Backend account reachable by the same history (addOrUpdateHouse h1,
addPayment early, addPayment late): payments held in insertion order. -/
def c1Account : Account :=
  { userProfile := { name := "" }, houses := [cHouse1],
    payments := [cPayEarly, cPayLate] }

/-- C1 (code bug, positional addressing mismatch): starting from the same
operation history (house h1; the date-100 payment added, then the date-200
payment), the client resolves positional index 0 through h1's payment list
sorted descending by date — targeting and locally deleting the date-200
payment — while the remote deletePayment resolves index 0 against the full
payment list in insertion order and deletes the date-100 payment.  The two
sides identify different payments and the stores diverge. -/
theorem c1_positional_index_divergence :
    (getPaymentsByHouse [cPayEarly, cPayLate] "h1").head? = some cPayLate ∧
    [cPayEarly, cPayLate].head? = some cPayEarly ∧
    deletePaymentLocal [cPayEarly, cPayLate] "h1" 0 = [cPayEarly] ∧
    (backendDeletePayment c1Account 0).map Account.payments =
      some [cPayLate] ∧
    cPayEarly ≠ cPayLate := by
  decide

/-- C4: deleting an entity removes it and every record referencing it, both
locally and in the backend, and this preserves the no-orphans invariant:
if every payment referenced a live house before the delete, the same holds
after it. -/
theorem c4_delete_house_no_orphans :
    (∀ houses payments houseId, noOrphans houses payments →
      (∀ h ∈ (deleteHouseLocal houses payments houseId).1, h.id ≠ houseId) ∧
      (∀ p ∈ (deleteHouseLocal houses payments houseId).2,
        p.houseId ≠ houseId) ∧
      noOrphans (deleteHouseLocal houses payments houseId).1
        (deleteHouseLocal houses payments houseId).2) ∧
    (∀ acc houseId acc', noOrphans acc.houses acc.payments →
      backendDeleteHouse acc houseId = some acc' →
      (∀ h ∈ acc'.houses, h.id ≠ houseId) ∧
      (∀ p ∈ acc'.payments, p.houseId ≠ houseId) ∧
      noOrphans acc'.houses acc'.payments) := by
  constructor
  · intro houses payments houseId hinv
    refine ⟨?_, ?_, ?_⟩
    · intro h hh
      simp only [deleteHouseLocal, List.mem_filter, decide_eq_true_eq] at hh
      exact hh.2
    · intro p hp
      simp only [deleteHouseLocal, List.mem_filter, decide_eq_true_eq] at hp
      exact hp.2
    · intro p hp
      simp only [deleteHouseLocal, List.mem_filter, decide_eq_true_eq] at hp ⊢
      obtain ⟨hmem, hne⟩ := hp
      obtain ⟨h, hh, hid⟩ := hinv p hmem
      exact ⟨h, ⟨hh, by rw [hid]; exact hne⟩, hid⟩
  · intro acc houseId acc' hinv hdel
    unfold backendDeleteHouse at hdel
    split at hdel
    · simp only [Option.some.injEq] at hdel
      subst hdel
      refine ⟨?_, ?_, ?_⟩
      · intro h hh
        simp only [List.mem_filter, decide_eq_true_eq] at hh
        exact hh.2
      · intro p hp
        simp only [List.mem_filter, decide_eq_true_eq] at hp
        exact hp.2
      · intro p hp
        simp only [List.mem_filter, decide_eq_true_eq] at hp ⊢
        obtain ⟨hmem, hne⟩ := hp
        obtain ⟨h, hh, hid⟩ := hinv p hmem
        exact ⟨h, ⟨hh, by rw [hid]; exact hne⟩, hid⟩
    · exact absurd hdel (by simp)

/-- Second concrete house, referenced by one payment that must survive the
deletion of cHouse1. -/
def cHouse2 : House :=
  { id := "h2", name := "", totalCost := 100, interestRate := 0,
    loanTermYears := 10, downPayment := 0, createdAt := 0 }

def cPayOther : Payment :=
  { amount := 5, date := 50, note := "", houseId := "h2",
    paymentMethod := "" }

/-- Witness for C4 at a concrete two-house store. -/
theorem c4_delete_house_no_orphans_witness :
    (∀ h ∈ (deleteHouseLocal [cHouse1, cHouse2]
        [cPayEarly, cPayOther] "h1").1, h.id ≠ "h1") ∧
    (∀ p ∈ (deleteHouseLocal [cHouse1, cHouse2]
        [cPayEarly, cPayOther] "h1").2, p.houseId ≠ "h1") ∧
    noOrphans (deleteHouseLocal [cHouse1, cHouse2]
        [cPayEarly, cPayOther] "h1").1
      (deleteHouseLocal [cHouse1, cHouse2] [cPayEarly, cPayOther] "h1").2 :=
  c4_delete_house_no_orphans.1 [cHouse1, cHouse2] [cPayEarly, cPayOther]
    "h1" (by unfold noOrphans; decide)

/-- C8: every read of the durable local store returns its empty or neutral
default — both when the key is missing and when the stored value fails to
parse — and a failed write is swallowed: the save returns (the unchanged
store) instead of propagating. -/
theorem c8_store_read_defaults :
    ∀ (store : LocalStore) (key s value : String)
      (pH : String → Option (List House))
      (pP : String → Option (List Payment))
      (pQ : String → Option (List SyncQueueItem))
      (pPr : String → Option UserProfile),
      (store key = none →
        lsGetHouses store key pH = [] ∧ lsGetPayments store key pP = [] ∧
        lsGetSyncQueue store key pQ = [] ∧ lsGetProfile store key pPr = none) ∧
      (store key = some s →
        (pH s = none → lsGetHouses store key pH = []) ∧
        (pP s = none → lsGetPayments store key pP = []) ∧
        (pQ s = none → lsGetSyncQueue store key pQ = []) ∧
        (pPr s = none → lsGetProfile store key pPr = none)) ∧
      lsSave store key value false = store := by
  intro store key s value pH pP pQ pPr
  refine ⟨?_, ?_, ?_⟩
  · intro hmiss
    simp [lsGetHouses, lsGetPayments, lsGetSyncQueue, lsGetProfile, hmiss]
  · intro hhit
    refine ⟨?_, ?_, ?_, ?_⟩ <;> intro hfail <;>
      simp [lsGetHouses, lsGetPayments, lsGetSyncQueue, lsGetProfile,
        hhit, hfail]
  · simp [lsSave]

/-- The empty browser store and an always-failing parser, for the C8
witness. -/
def cEmptyStore : LocalStore := fun _ => none

/-- Witness for C8 at the empty store. -/
theorem c8_store_read_defaults_witness :
    lsGetHouses cEmptyStore "mortgage_tracker_houses" (fun _ => none) = [] ∧
    lsGetProfile cEmptyStore "mortgage_tracker_profile" (fun _ => none) =
      none ∧
    lsSave cEmptyStore "mortgage_tracker_houses" "[]" false = cEmptyStore := by
  obtain ⟨hm, _, hw⟩ := c8_store_read_defaults cEmptyStore
    "mortgage_tracker_houses" "" "[]" (fun _ => none) (fun _ => none)
    (fun _ => none) (fun _ => none)
  obtain ⟨hh, _, _, _⟩ := hm rfl
  obtain ⟨hm2, _, _⟩ := c8_store_read_defaults cEmptyStore
    "mortgage_tracker_profile" "" "[]" (fun _ => none) (fun _ => none)
    (fun _ => none) (fun _ => none)
  obtain ⟨_, _, _, hp⟩ := hm2 rfl
  exact ⟨hh, hp, hw⟩

lemma foldl_add_amount (l : List Payment) (a : ℚ) :
    l.foldl (fun s p => s + p.amount) a = a + (l.map Payment.amount).sum := by
  induction l generalizing a with
  | nil => simp
  | cons p l ih =>
    simp only [List.foldl_cons, ih, List.map_cons, List.sum_cons]
    ring

lemma sumAmounts_perm {l l' : List Payment} (h : l.Perm l') :
    sumAmounts l = sumAmounts l' := by
  unfold sumAmounts
  rw [foldl_add_amount, foldl_add_amount, (h.map Payment.amount).sum_eq]

/-- Sorting does not change the sum of a house's payment amounts. -/
lemma sumAmounts_getPaymentsByHouse (payments : List Payment)
    (houseId : String) :
    sumAmounts (getPaymentsByHouse payments houseId) =
      sumAmounts (payments.filter (fun p => decide (p.houseId = houseId))) :=
  sumAmounts_perm (List.perm_insertionSort _ _)

/-- Scenario-B payment of the spec. -/
def cScenPayment : Payment :=
  { amount := 24960, date := 0, note := "", houseId := "h1",
    paymentMethod := "" }

/-- C3: the per-entity progress calculation computes exactly the spec's
formulas — loanAmount = totalCost - downPayment, interestAmount =
loanAmount * interestRate/100, totalPayable = loanAmount + interestAmount,
totalPaid = sum of the amounts of the records referencing the entity,
remaining = totalPayable - totalPaid, progressPct = totalPaid/totalPayable*100
guarded to 0 when totalPayable = 0 — and on the spec's Scenario A it returns
remaining 249600 with progressPct 0, and on Scenario B totalPaid 24960 with
progressPct 10. -/
theorem c3_house_progress_formulas :
    (∀ houses payments houseId house r,
      houses.find? (fun h => decide (h.id = houseId)) = some house →
      calculateHouseProgress houses payments houseId = some r →
      r.totalPaid =
        sumAmounts (payments.filter (fun p => decide (p.houseId = houseId))) ∧
      r.interestAmount =
        (house.totalCost - house.downPayment) * (house.interestRate / 100) ∧
      r.totalLoanAmount =
        (house.totalCost - house.downPayment) + r.interestAmount ∧
      r.remainingBalance = r.totalLoanAmount - r.totalPaid ∧
      (r.totalLoanAmount = 0 → r.progressPercentage = 0) ∧
      (r.totalLoanAmount ≠ 0 →
        r.progressPercentage = r.totalPaid / r.totalLoanAmount * 100)) ∧
    calculateHouseProgress [cHouse1] [] "h1" =
      some { totalPaid := 0, remainingBalance := 249600,
             progressPercentage := 0, interestAmount := 9600,
             downPayment := 60000, loanTermYears := 30,
             totalLoanAmount := 249600 } ∧
    calculateHouseProgress [cHouse1] [cScenPayment] "h1" =
      some { totalPaid := 24960, remainingBalance := 224640,
             progressPercentage := 10, interestAmount := 9600,
             downPayment := 60000, loanTermYears := 30,
             totalLoanAmount := 249600 } := by
  refine ⟨?_, ?_, ?_⟩
  case refine_2 =>
    norm_num [calculateHouseProgress, getPaymentsByHouse, sortPaymentsDesc,
      sumAmounts, cHouse1, List.find?, List.filter, List.insertionSort,
      List.orderedInsert, HouseProgress.mk.injEq]
  case refine_3 =>
    norm_num [calculateHouseProgress, getPaymentsByHouse, sortPaymentsDesc,
      sumAmounts, cHouse1, cScenPayment, List.find?, List.filter,
      List.insertionSort, List.orderedInsert, HouseProgress.mk.injEq]
  intro houses payments houseId house r hfind hcalc
  unfold calculateHouseProgress at hcalc
  rw [hfind] at hcalc
  simp only [Option.some.injEq] at hcalc
  subst hcalc
  refine ⟨?_, rfl, rfl, rfl, ?_, ?_⟩
  · exact sumAmounts_getPaymentsByHouse payments houseId
  · intro h0
    dsimp only at h0 ⊢
    rw [if_pos h0]
  · intro h0
    dsimp only at h0 ⊢
    rw [if_neg h0]

/-- Witness for C3 at Scenario B: conjunct one applied at the concrete
house, one-payment record list, and its computed result. -/
theorem c3_house_progress_formulas_witness :
    ({ totalPaid := 24960, remainingBalance := 224640,
       progressPercentage := 10, interestAmount := 9600,
       downPayment := 60000, loanTermYears := 30,
       totalLoanAmount := 249600 } : HouseProgress).totalPaid =
      sumAmounts ([cScenPayment].filter
        (fun p => decide (p.houseId = "h1"))) :=
  (c3_house_progress_formulas.1 [cHouse1] [cScenPayment] "h1" cHouse1 _
    (by decide)
    (by norm_num [calculateHouseProgress, getPaymentsByHouse,
      sortPaymentsDesc, sumAmounts, cHouse1, cScenPayment, List.find?,
      List.filter, List.insertionSort, List.orderedInsert,
      HouseProgress.mk.injEq])).1

/-- The guarded percentage lies in the unit-percent range when the paid part
is nonnegative and bounded by the payable total. -/
lemma progressPct_bounds (paid tla : ℚ) (h0 : 0 ≤ paid) (hle : paid ≤ tla) :
    0 ≤ (if tla = 0 then (0 : ℚ) else paid / tla * 100) ∧
    (if tla = 0 then (0 : ℚ) else paid / tla * 100) ≤ 100 := by
  by_cases h : tla = 0
  · simp [h]
  · have htla : 0 < tla := lt_of_le_of_ne (le_trans h0 hle) (Ne.symm h)
    rw [if_neg h]
    constructor
    · positivity
    · have h1 : paid / tla ≤ 1 := (div_le_one htla).mpr hle
      nlinarith [h1]

/-- C5 amended: for both the frontend calculator and the backend
getHouseProgress, progressPct is exactly 0 when totalPayable = 0, and it lies
in [0, 100] whenever 0 ≤ totalPaid ≤ totalPayable.  (The original claim,
without the nonnegativity hypothesis, is refuted by
c5_progress_bounds_counterexample.) -/
theorem c5_progress_bounds_amended :
    (∀ houses payments houseId r,
      calculateHouseProgress houses payments houseId = some r →
      (r.totalLoanAmount = 0 → r.progressPercentage = 0) ∧
      (0 ≤ r.totalPaid → r.totalPaid ≤ r.totalLoanAmount →
        0 ≤ r.progressPercentage ∧ r.progressPercentage ≤ 100)) ∧
    (∀ acc houseId r,
      backendGetHouseProgress acc houseId = some r →
      (r.totalLoanAmount = 0 → r.progressPercentage = 0) ∧
      (0 ≤ r.totalPaid → r.totalPaid ≤ r.totalLoanAmount →
        0 ≤ r.progressPercentage ∧ r.progressPercentage ≤ 100)) := by
  constructor
  · intro houses payments houseId r hr
    unfold calculateHouseProgress at hr
    cases hfind : houses.find? (fun h => decide (h.id = houseId)) with
    | none => rw [hfind] at hr; exact absurd hr (by simp)
    | some house =>
      rw [hfind] at hr
      simp only [Option.some.injEq] at hr
      subst hr
      constructor
      · intro h0
        dsimp only at h0 ⊢
        rw [if_pos h0]
      · intro h0 hle
        dsimp only at h0 hle ⊢
        exact progressPct_bounds _ _ h0 hle
  · intro acc houseId r hr
    unfold backendGetHouseProgress at hr
    cases hfind : acc.houses.find? (fun h => decide (h.id = houseId)) with
    | none => rw [hfind] at hr; exact absurd hr (by simp)
    | some house =>
      rw [hfind] at hr
      simp only [Option.some.injEq] at hr
      subst hr
      constructor
      · intro h0
        dsimp only at h0 ⊢
        rw [if_pos h0]
      · intro h0 hle
        dsimp only at h0 hle ⊢
        exact progressPct_bounds _ _ h0 hle

/-- House whose downPayment exceeds its totalCost: payable total is
negative. -/
def cxHouse : House :=
  { id := "hx", name := "", totalCost := 0, interestRate := 0,
    loanTermYears := 0, downPayment := 100, createdAt := 0 }

/-- Negative payment amount referencing cxHouse. -/
def cxPayment : Payment :=
  { amount := -200, date := 0, note := "", houseId := "hx",
    paymentMethod := "" }

/-- C5 counterexample: with totalPayable = -100 and totalPaid = -200 the
hypothesis totalPaid ≤ totalPayable of the original claim holds, yet the
computed progressPct is 200, outside [0, 100]. -/
theorem c5_progress_bounds_counterexample :
    calculateHouseProgress [cxHouse] [cxPayment] "hx" =
      some { totalPaid := -200, remainingBalance := 100,
             progressPercentage := 200, interestAmount := 0,
             downPayment := 100, loanTermYears := 0,
             totalLoanAmount := -100 } ∧
    (-200 : ℚ) ≤ -100 ∧ ¬ ((200 : ℚ) ≤ 100) := by
  refine ⟨?_, by norm_num, by norm_num⟩
  norm_num [calculateHouseProgress, getPaymentsByHouse, sortPaymentsDesc,
    sumAmounts, cxHouse, cxPayment, List.find?, List.filter,
    List.insertionSort, List.orderedInsert, HouseProgress.mk.injEq]

/-- Witness for the amended C5 at Scenario A. -/
theorem c5_progress_bounds_amended_witness :
    0 ≤ ({ totalPaid := 0, remainingBalance := 249600,
           progressPercentage := 0, interestAmount := 9600,
           downPayment := 60000, loanTermYears := 30,
           totalLoanAmount := 249600 } : HouseProgress).progressPercentage ∧
    ({ totalPaid := 0, remainingBalance := 249600,
       progressPercentage := 0, interestAmount := 9600,
       downPayment := 60000, loanTermYears := 30,
       totalLoanAmount := 249600 } : HouseProgress).progressPercentage ≤
      100 :=
  (c5_progress_bounds_amended.1 [cHouse1] [] "h1" _
    (by norm_num [calculateHouseProgress, getPaymentsByHouse,
      sortPaymentsDesc, sumAmounts, cHouse1, List.find?, List.filter,
      List.insertionSort, List.orderedInsert, HouseProgress.mk.injEq])).2
    (by decide) (by decide)

/-- Lookup of a queue item by id (first match). -/
def findQueueItem (q : List SyncQueueItem) (itemId : String) :
    Option SyncQueueItem :=
  q.find? (fun it => decide (it.id = itemId))

/-- The operations offered on the persisted sync queue by the offline
storage manager. -/
inductive QueueOp where
  | enqueueOp (ty : SyncOpType) (d : SyncPayload) (freshId : String) (now : ℤ)
  | removeOp (itemId : String)
  | incrementOp (itemId : String)
  | clearOp
deriving DecidableEq, Repr

def applyQueueOp (q : List SyncQueueItem) : QueueOp → List SyncQueueItem
  | .enqueueOp ty d freshId now => addToSyncQueue q ty d freshId now
  | .removeOp i => removeFromSyncQueue q i
  | .incrementOp i => incrementRetryCount q i
  | .clearOp => clearSyncQueue q

lemma findQueueItem_cons (x : SyncQueueItem) (q : List SyncQueueItem)
    (i : String) :
    findQueueItem (x :: q) i =
      if x.id = i then some x else findQueueItem q i := by
  by_cases h : x.id = i <;> simp [findQueueItem, List.find?, h]

lemma findQueueItem_append_of_some {q : List SyncQueueItem} {i : String}
    {it : SyncQueueItem} (h : findQueueItem q i = some it)
    (r : List SyncQueueItem) : findQueueItem (q ++ r) i = some it := by
  induction q with
  | nil => simp [findQueueItem, List.find?] at h
  | cons x q ih =>
    rw [findQueueItem_cons] at h
    rw [List.cons_append, findQueueItem_cons]
    by_cases hx : x.id = i
    · rwa [if_pos hx] at h ⊢
    · rw [if_neg hx] at h ⊢
      exact ih h

lemma findQueueItem_remove_self (q : List SyncQueueItem) (i : String) :
    findQueueItem (removeFromSyncQueue q i) i = none := by
  induction q with
  | nil => rfl
  | cons x q ih =>
    by_cases hx : x.id = i
    · simpa [removeFromSyncQueue, List.filter_cons, hx] using ih
    · simpa [removeFromSyncQueue, List.filter_cons, hx,
        findQueueItem_cons] using ih

lemma findQueueItem_remove_other (q : List SyncQueueItem) {i j : String}
    (hij : i ≠ j) :
    findQueueItem (removeFromSyncQueue q j) i = findQueueItem q i := by
  induction q with
  | nil => rfl
  | cons x q ih =>
    rw [removeFromSyncQueue, List.filter_cons]
    by_cases hx : x.id = j
    · have hxi : x.id ≠ i := fun hc => hij (hc.symm.trans hx)
      rw [if_neg (by simp [hx])]
      rw [show (List.filter (fun it => decide (it.id ≠ j)) q) =
          removeFromSyncQueue q j from rfl, ih, findQueueItem_cons,
        if_neg hxi]
    · rw [if_pos (by simp [hx]), findQueueItem_cons, findQueueItem_cons]
      by_cases hxi : x.id = i
      · rw [if_pos hxi, if_pos hxi]
      · rw [if_neg hxi, if_neg hxi]
        exact ih

lemma findQueueItem_increment (q : List SyncQueueItem) (i j : String) :
    findQueueItem (incrementRetryCount q j) i =
      (findQueueItem q i).map (fun it =>
        if it.id = j then { it with retryCount := it.retryCount + 1 }
        else it) := by
  induction q with
  | nil => rfl
  | cons x q ih =>
    have hgid :
        (if x.id = j then { x with retryCount := x.retryCount + 1 }
         else x).id = x.id := by
      split <;> rfl
    simp only [incrementRetryCount, List.map_cons]
    rw [findQueueItem_cons, findQueueItem_cons, hgid]
    by_cases hx : x.id = i
    · rw [if_pos hx, if_pos hx, Option.map_some']
    · rw [if_neg hx, if_neg hx]
      exact ih

/-- C6: enqueue assigns the (environment-supplied fresh) id and timestamp,
sets retryCount to 0 and appends the item at the end of the queue; and no
queue operation — enqueue, remove, increment-retry, or clear — ever
decreases the retryCount of an item still found in the queue. -/
theorem c6_retry_count_monotone :
    (∀ q ty d freshId now,
      addToSyncQueue q ty d freshId now =
        q ++ [{ id := freshId, type := ty, data := d, timestamp := now,
                retryCount := 0 }]) ∧
    (∀ (op : QueueOp) (q : List SyncQueueItem) (i : String) it it',
      findQueueItem q i = some it →
      findQueueItem (applyQueueOp q op) i = some it' →
      it.retryCount ≤ it'.retryCount) := by
  refine ⟨fun _ _ _ _ _ => rfl, ?_⟩
  intro op q i it it' h1 h2
  cases op with
  | enqueueOp ty d freshId now =>
    rw [show applyQueueOp q (.enqueueOp ty d freshId now) =
        q ++ [{ id := freshId, type := ty, data := d, timestamp := now,
                retryCount := 0 }] from rfl,
      findQueueItem_append_of_some h1] at h2
    cases h2
    exact le_refl _
  | removeOp j =>
    by_cases hij : i = j
    · subst hij
      rw [show applyQueueOp q (.removeOp i) = removeFromSyncQueue q i
          from rfl, findQueueItem_remove_self] at h2
      cases h2
    · rw [show applyQueueOp q (.removeOp j) = removeFromSyncQueue q j
          from rfl, findQueueItem_remove_other q hij, h1] at h2
      cases h2
      exact le_refl _
  | incrementOp j =>
    rw [show applyQueueOp q (.incrementOp j) = incrementRetryCount q j
        from rfl, findQueueItem_increment, h1] at h2
    simp only [Option.map_some'] at h2
    cases h2
    by_cases hj : it.id = j
    · rw [if_pos hj]
      exact Nat.le_succ _
    · rw [if_neg hj]
  | clearOp =>
    simp [applyQueueOp, clearSyncQueue, findQueueItem, List.find?] at h2

/-- Concrete queue item for the C6 witness. -/
def c6Item : SyncQueueItem :=
  { id := "w1", type := .update_profile,
    data := .profilePayload { name := "n" }, timestamp := 0,
    retryCount := 0 }

/-- Witness for C6: incrementing the retry counter of the only queued item
does not decrease it. -/
theorem c6_retry_count_monotone_witness :
    c6Item.retryCount ≤
      ({ c6Item with retryCount := 1 } : SyncQueueItem).retryCount :=
  c6_retry_count_monotone.2 (.incrementOp "w1") [c6Item] "w1" c6Item
    { c6Item with retryCount := 1 } (by decide) (by decide)

/-- C7: when a drain pass successfully syncs one queued item, exactly that
item is removed and every other queued item is left unchanged, in the
original relative order (ids of the other items differ from the synced
item's id, as enqueue assigns unique ids). -/
theorem c7_drain_success_frame :
    ∀ (l₁ : List SyncQueueItem) (it : SyncQueueItem)
      (l₂ : List SyncQueueItem),
      (∀ x ∈ l₁ ++ l₂, x.id ≠ it.id) →
      drainProcessItem (l₁ ++ it :: l₂) it true = l₁ ++ l₂ := by
  intro l₁ it l₂ hids
  have h1 : ∀ x ∈ l₁, x.id ≠ it.id :=
    fun x hx => hids x (List.mem_append_left _ hx)
  have h2 : ∀ x ∈ l₂, x.id ≠ it.id :=
    fun x hx => hids x (List.mem_append_right _ hx)
  have hf1 : l₁.filter (fun x => decide (x.id ≠ it.id)) = l₁ :=
    List.filter_eq_self.mpr (fun a ha => decide_eq_true (h1 a ha))
  have hf2 : l₂.filter (fun x => decide (x.id ≠ it.id)) = l₂ :=
    List.filter_eq_self.mpr (fun a ha => decide_eq_true (h2 a ha))
  show removeFromSyncQueue (l₁ ++ it :: l₂) it.id = l₁ ++ l₂
  rw [removeFromSyncQueue, List.filter_append, List.filter_cons,
    if_neg (by simp), hf1, hf2]

/-- Concrete items for the C7 witness. -/
def c7ItemA : SyncQueueItem :=
  { id := "a", type := .add_house, data := .housePayload cHouse1,
    timestamp := 0, retryCount := 0 }

def c7ItemB : SyncQueueItem :=
  { id := "b", type := .delete_house, data := .houseIdPayload "h1",
    timestamp := 1, retryCount := 0 }

def c7ItemC : SyncQueueItem :=
  { id := "c", type := .update_profile,
    data := .profilePayload { name := "n" }, timestamp := 2,
    retryCount := 0 }

/-- Witness for C7: syncing the middle of three queued items removes it and
keeps the outer two in order. -/
theorem c7_drain_success_frame_witness :
    drainProcessItem [c7ItemA, c7ItemB, c7ItemC] c7ItemB true =
      [c7ItemA, c7ItemC] :=
  c7_drain_success_frame [c7ItemA] c7ItemB [c7ItemC] (by decide)

/-- The full mutationFn of useDeletePayment: the new local payment list
together with the request payload it queues or sends (built from the same
positional index and house id in every branch of the source). -/
def useDeletePaymentMutation (payments : List Payment) (houseId : String)
    (paymentIndex : ℕ) : List Payment × SyncPayload :=
  (deletePaymentLocal payments houseId paymentIndex,
   .deletePaymentPayload paymentIndex houseId)

/-- The full mutationFn of useEditPayment: new local payment list plus the
request payload it queues or sends. -/
def useEditPaymentMutation (payments : List Payment) (houseId : String)
    (paymentIndex : ℕ) (amount : ℚ) (note paymentMethod : String)
    (date : ℤ) : List Payment × SyncPayload :=
  (editPaymentLocal payments houseId paymentIndex amount note paymentMethod
    date,
   .editPaymentPayload paymentIndex amount note houseId paymentMethod date)

/-- Pairwise distinct (date, amount) pairs, the hypothesis under which the
first-match key lookup of the client is unambiguous. -/
def distinctDateAmount (l : List Payment) : Prop :=
  l.Pairwise (fun a b => ¬(a.date = b.date ∧ a.amount = b.amount))

lemma paymentKeyMatch_self (t : Payment) : paymentKeyMatch t t = true := by
  simp [paymentKeyMatch]

lemma findIdx_first_match (l : List Payment) (t : Payment) (hmem : t ∈ l)
    (huniq : ∀ p ∈ l, paymentKeyMatch p t = true → p = t) :
    ∃ l₁ l₂, l = l₁ ++ t :: l₂ ∧
      l.findIdx? (fun p => paymentKeyMatch p t) = some l₁.length := by
  induction l with
  | nil => cases hmem
  | cons x xs ih =>
    by_cases hx : paymentKeyMatch x t = true
    · have hxt : x = t := huniq x (List.mem_cons_self x xs) hx
      subst hxt
      exact ⟨[], xs, rfl, by simp [List.findIdx?_cons, hx]⟩
    · have hmem' : t ∈ xs := by
        cases hmem with
        | head => exact absurd (paymentKeyMatch_self t) hx
        | tail _ h => exact h
      have huniq' : ∀ p ∈ xs, paymentKeyMatch p t = true → p = t :=
        fun p hp => huniq p (List.mem_cons_of_mem x hp)
      obtain ⟨l₁, l₂, heq, hfind⟩ := ih hmem' huniq'
      refine ⟨x :: l₁, l₂, by rw [heq]; rfl, ?_⟩
      rw [List.findIdx?_cons, if_neg (by simp [hx]), List.findIdx?_succ,
        hfind]
      simp [List.length_cons]

lemma eraseIdx_append_len {α : Type} (l₁ : List α) (t : α) (l₂ : List α) :
    (l₁ ++ t :: l₂).eraseIdx l₁.length = l₁ ++ l₂ := by
  induction l₁ with
  | nil => rfl
  | cons x l₁ ih => simp [List.eraseIdx, ih]

lemma set_append_len {α : Type} (l₁ : List α) (t new : α) (l₂ : List α) :
    (l₁ ++ t :: l₂).set l₁.length new = l₁ ++ new :: l₂ := by
  induction l₁ with
  | nil => rfl
  | cons x l₁ ih => simp [List.set, ih]

lemma uniq_of_distinct (payments : List Payment) (houseId : String)
    (t : Payment)
    (hd : distinctDateAmount
      (payments.filter (fun p => decide (p.houseId = houseId))))
    (ht : t ∈ payments.filter (fun p => decide (p.houseId = houseId))) :
    ∀ p ∈ payments, paymentKeyMatch p t = true → p = t := by
  intro p hp hm
  simp only [paymentKeyMatch, decide_eq_true_eq] at hm
  obtain ⟨hH, hD, hA⟩ := hm
  have htH : t.houseId = houseId := by
    have := (List.mem_filter.mp ht).2
    simpa using this
  have hpF : p ∈ payments.filter (fun p => decide (p.houseId = houseId)) :=
    List.mem_filter.mpr ⟨hp, by simp [hH, htH]⟩
  by_contra hne
  have hsymm :
      Symmetric (fun a b : Payment =>
        ¬(a.date = b.date ∧ a.amount = b.amount)) := by
    intro a b hab hba
    exact hab ⟨hba.1.symm, hba.2.symm⟩
  exact List.Pairwise.forall hsymm hd hpF ht hne ⟨hD, hA⟩

/-- Locating the i-th payment of the sorted house list inside the global
list: under distinct (date, amount) pairs the first key match is exactly
that payment's unique occurrence. -/
lemma locate_target (payments : List Payment) (houseId : String) (i : ℕ)
    (hd : distinctDateAmount
      (payments.filter (fun p => decide (p.houseId = houseId))))
    (h : i < (getPaymentsByHouse payments houseId).length) :
    ∃ l₁ l₂,
      payments =
        l₁ ++ (getPaymentsByHouse payments houseId).get ⟨i, h⟩ :: l₂ ∧
      payments.findIdx?
        (fun p => paymentKeyMatch p
          ((getPaymentsByHouse payments houseId).get ⟨i, h⟩)) =
        some l₁.length := by
  have htF : (getPaymentsByHouse payments houseId).get ⟨i, h⟩ ∈
      payments.filter (fun p => decide (p.houseId = houseId)) :=
    (List.perm_insertionSort _ _).subset (List.get_mem _ _ _)
  exact findIdx_first_match payments _ (List.mem_filter.mp htF).1
    (uniq_of_distinct payments houseId _ hd htF)

/-- C10: for a house whose stored payments carry pairwise distinct
(date, amount) pairs, the local delete and edit operations with a valid
positional index i modify exactly the payment at position i of the house's
payment list sorted descending by date (located in the global list by first
match on houseId, date and amount); with an out-of-range index the local
list is unchanged; and in every case the operation still emits the remote
request carrying that same index. -/
theorem c10_local_positional_edit_delete :
    ∀ (payments : List Payment) (houseId : String) (paymentIndex : ℕ)
      (amount : ℚ) (note paymentMethod : String) (date : ℤ),
      distinctDateAmount
        (payments.filter (fun p => decide (p.houseId = houseId))) →
      (∀ h : paymentIndex < (getPaymentsByHouse payments houseId).length,
        ∃ l₁ l₂,
          payments =
            l₁ ++ (getPaymentsByHouse payments houseId).get
              ⟨paymentIndex, h⟩ :: l₂ ∧
          (useDeletePaymentMutation payments houseId paymentIndex).1 =
            l₁ ++ l₂ ∧
          (useEditPaymentMutation payments houseId paymentIndex amount note
              paymentMethod date).1 =
            l₁ ++ ({ amount, note, houseId, paymentMethod, date } : Payment)
              :: l₂) ∧
      ((getPaymentsByHouse payments houseId).length ≤ paymentIndex →
        (useDeletePaymentMutation payments houseId paymentIndex).1 =
          payments ∧
        (useEditPaymentMutation payments houseId paymentIndex amount note
          paymentMethod date).1 = payments) ∧
      (useDeletePaymentMutation payments houseId paymentIndex).2 =
        SyncPayload.deletePaymentPayload paymentIndex houseId ∧
      (useEditPaymentMutation payments houseId paymentIndex amount note
          paymentMethod date).2 =
        SyncPayload.editPaymentPayload paymentIndex amount note houseId
          paymentMethod date := by
  intro payments houseId i amount note method date hd
  refine ⟨?_, ?_, rfl, rfl⟩
  · intro h
    obtain ⟨l₁, l₂, heq, hfind⟩ := locate_target payments houseId i hd h
    refine ⟨l₁, l₂, heq, ?_, ?_⟩
    · show deletePaymentLocal payments houseId i = l₁ ++ l₂
      simp only [deletePaymentLocal]
      rw [dif_pos h, hfind]
      show payments.eraseIdx l₁.length = l₁ ++ l₂
      rw [heq]
      exact eraseIdx_append_len l₁ _ l₂
    · show editPaymentLocal payments houseId i amount note method date =
        l₁ ++ ({ amount, note, houseId, paymentMethod := method, date } :
          Payment) :: l₂
      simp only [editPaymentLocal]
      rw [dif_pos h, hfind]
      show payments.set l₁.length _ = _
      rw [heq]
      exact set_append_len l₁ _ _ l₂
  · intro hle
    constructor
    · show deletePaymentLocal payments houseId i = payments
      simp only [deletePaymentLocal]
      rw [dif_neg (not_lt.mpr hle)]
    · show editPaymentLocal payments houseId i amount note method date =
        payments
      simp only [editPaymentLocal]
      rw [dif_neg (not_lt.mpr hle)]

/-- Witness for C10: two payments of house h1 with distinct (date, amount)
pairs; position 0 of the descending-date list is the date-200 payment and
the local delete removes exactly it. -/
theorem c10_local_positional_edit_delete_witness :
    ∃ l₁ l₂,
      [cPayEarly, cPayLate] =
        l₁ ++ (getPaymentsByHouse [cPayEarly, cPayLate] "h1").get
          ⟨0, by decide⟩ :: l₂ ∧
      (useDeletePaymentMutation [cPayEarly, cPayLate] "h1" 0).1 =
        l₁ ++ l₂ ∧
      (useEditPaymentMutation [cPayEarly, cPayLate] "h1" 0 7 "n" "m" 42).1 =
        l₁ ++ ({ amount := 7, note := "n", houseId := "h1",
                 paymentMethod := "m", date := 42 } : Payment) :: l₂ :=
  (c10_local_positional_edit_delete [cPayEarly, cPayLate] "h1" 0 7 "n" "m"
      42 (by unfold distinctDateAmount; decide)).1 (by decide)

end MortgageTracker
